import Mathlib

/-!
Verification of the blastdbbuilder pipeline (blastdbbuilder/cli.py).

The development shallowly embeds the pure content of the three CLI
stages — the manifest filter (create_csv_from_summary), the per-accession
download loop (download_group), and the concatenation stage
(concat_genomes) — as Lean functions over explicit filesystem states.
External processes (wget, the datasets CLI, unzip, makeblastdb) are
modelled by oracles giving their exit status and the files they produce;
wall-clock timestamps written by write_summary are abstracted away, so a
summary-log line is modelled as its message text.
-/

/-- File contents are byte strings; we model the text read by Python as a
list of characters. -/
abbrev Content := List Char

/-- Line iteration of Python over an open text file: the content is split
into lines, each line keeping its trailing newline character; a final
segment with no trailing newline is still yielded when nonempty, and an
empty file yields no lines. -/
def pythonLines : Content → List Content
  | [] => []
  | c :: rest =>
    if c = '\n' then ['\n'] :: pythonLines rest
    else
      match pythonLines rest with
      | [] => [[c]]
      | l :: ls => (c :: l) :: ls

/-- line.startswith(">"): the record-start test applied to each copied line
at cli.py:160. -/
def lineIsRecord : Content → Bool
  | c :: _ => c = '>'
  | [] => false

/-- Number of record-start lines in one source file: the contribution of
that file to the running counter of concat_genomes. -/
def fileRecordCount (content : Content) : Nat :=
  (pythonLines content).countP lineIsRecord

/-- The body of the inner loop of concat_genomes (cli.py:158-161): write
the line verbatim to the output, and increment the counter when the line
starts with the record marker. The accumulator is (bytes written so far,
running record count). -/
def writeLine (a : Content × Nat) (line : Content) : Content × Nat :=
  (a.1 ++ line, if lineIsRecord line then a.2 + 1 else a.2)

/-- One iteration of the outer loop of concat_genomes (cli.py:156-161):
stream one source file line by line into the output. -/
def concatStep (a : Content × Nat) (content : Content) : Content × Nat :=
  (pythonLines content).foldl writeLine a

/-- The whole write loop of concat_genomes (cli.py:154-161): fold over the
globbed source files in their listed order, starting from an empty output
file and a zero counter. -/
def concatLoop (files : List Content) : Content × Nat :=
  files.foldl concatStep ([], 0)

/-- The recognized sequence-file extensions, in the order the code tries
them (cli.py:103-105 and cli.py:146). -/
def fastaExtensions : List String := [".fna", ".fa", ".fasta"]

/-- name.endswith(ext), on the character lists of the two strings. -/
def strEnds (name ext : String) : Bool :=
  ext.data.isSuffixOf name.data

/-- Whether a filename carries one of the recognized FASTA extensions. -/
def isFastaName (name : String) : Bool :=
  fastaExtensions.any (fun ext => strEnds name ext)

/-- The db directory as seen by concat_genomes: files sitting directly in
db/ and one level of subdirectories (group directories, containers, ...),
each holding a flat list of (filename, content) pairs. List order
represents the filesystem enumeration order that glob.glob reports. -/
structure DbDir where
  rootFiles : List (String × Content)
  subdirs : List (String × List (String × Content))
deriving DecidableEq

/-- The glob loop of concat_genomes (cli.py:145-147): for each extension
pattern in turn, extend the worklist with every matching file under
db/ (recursively; `**` also matches the top level). Within one pattern the
results follow enumeration order: root-level matches, then each
the matches of each subdirectory. -/
def dbFastaListing (db : DbDir) : List (String × Content) :=
  fastaExtensions.foldl
    (fun acc ext =>
      acc ++ db.rootFiles.filter (fun f => strEnds f.1 ext)
          ++ (db.subdirs.map (fun s => s.2.filter (fun f => strEnds f.1 ext))).flatten)
    []

/-- Result of one call to concat_genomes: the db directory afterwards, the
combined file placed at the project root (None when the function bailed
out), and the reported record count. -/
structure ConcatResult where
  dbAfter : DbDir
  finalFile : Option (String × Content)
  count : Nat
deriving DecidableEq

/-- concat_genomes (cli.py:140-177). With no matching files it prints an
error and returns None, leaving the db directory as it was (the empty
db/concat scratch directory it creates is elided). Otherwise it streams
every listed file into the combined output, moves that file one level up
as combined_fasta.fasta, and deletes every subdirectory of db/ except
containers (cli.py:163-173); files sitting directly in db/ are untouched
by that loop, which only removes directories. -/
def concat_genomes (db : DbDir) : ConcatResult :=
  if (dbFastaListing db).isEmpty then
    ⟨db, none, 0⟩
  else
    ⟨⟨db.rootFiles, db.subdirs.filter (fun s => s.1 == "containers")⟩,
     some ("combined_fasta.fasta", (concatLoop ((dbFastaListing db).map Prod.snd)).1),
     (concatLoop ((dbFastaListing db).map Prod.snd)).2⟩

/-- build_blast_db (cli.py:182-216) reduced to its exit behaviour: with no
input file it prints an error and returns (the process later exits 0);
with an input file it shells out to makeblastdb, and a non-zero exit there
raises CalledProcessError through run_cmd, which nothing in main catches,
so the interpreter terminates with exit code 1. blastOk is the oracle for
success of the external tool. -/
def build_blast_db (fasta : Option String) (blastOk : Bool) : Nat :=
  match fasta with
  | none => 0
  | some _ => if blastOk then 0 else 1

/-- Exit code of a run of main that performs the concat stage and then
optionally the build stage (cli.py:264-278). When concat returned None and
--build was given, main looks for a combined_fasta.fasta left by an
earlier run (priorCombined) before calling build_blast_db. No branch of
main raises on an empty concatenation, so such a run ends with exit 0. -/
def mainExitCode (doBuild : Bool) (db : DbDir) (priorCombined : Bool) (blastOk : Bool) : Nat :=
  if doBuild then
    match (concat_genomes db).finalFile with
    | some f => build_blast_db (some f.1) blastOk
    | none =>
      if priorCombined then build_blast_db (some "combined_fasta.fasta") blastOk
      else build_blast_db none blastOk
  else 0

/-- line.startswith("#"): the comment test of create_csv_from_summary
(cli.py:57). -/
def lineStartsHash : Content → Bool
  | c :: _ => c = '#'
  | [] => false

/-- Whether the character is stripped by str.strip() of Python (the ASCII
whitespace characters; the further Unicode whitespace Python also strips
plays no role here). -/
def isSpaceChar (c : Char) : Bool :=
  c = ' ' || c = '\t' || c = '\n' || c = '\r' || c = '\x0b' || c = '\x0c'

/-- line.strip() (cli.py:59). -/
def stripChars (s : Content) : Content :=
  ((s.dropWhile isSpaceChar).reverse.dropWhile isSpaceChar).reverse

/-- str.split("\t"): splitting on an explicit separator, so the empty
string yields one empty field and n separators yield n+1 fields. -/
def splitOnTab : Content → List Content
  | [] => [[]]
  | c :: rest =>
    if c = '\t' then [] :: splitOnTab rest
    else
      match splitOnTab rest with
      | [] => [[c]]
      | l :: ls => (c :: l) :: ls

/-- cols[i] of a parsed row. Used only under the arity checks of csvRowOf,
which mirror where the Python indexing succeeds, so the default is never
read on the paths the model takes. -/
def colAt (cols : List Content) (i : Nat) : Content :=
  cols.getD i []

/-- Lower-cased characters of a group name: group_name.lower()
(cli.py:60). -/
def lowerName (s : String) : Content :=
  s.data.map Char.toLower

/-- The groups whose manifest rows are kept only when marked as reference
genomes (cli.py:60). -/
def refGroups : List Content :=
  [("archaea").data, ("bacteria").data, ("fungi").data, ("plants").data]

/-- The category label the filter compares against (cli.py:61). -/
def refGenomeLabel : Content := ("reference genome").data

/-- The row written to the CSV for a kept manifest line (cli.py:63). -/
def csvProjection (cols : List Content) : List Content :=
  [colAt cols 0, colAt cols 1, colAt cols 2, colAt cols 4, colAt cols 7]

/-- What the loop body of cli.py:56-63 does with one manifest line.
indexError marks the lines where the unconditional Python indexing raises:
for a reference-requiring group, cols[4] is read first (IndexError when the
row has at most 4 fields), a row with another category is then skipped
without touching cols[7], and a kept row is written only after cols[7]
(IndexError when the row has at most 7 fields); for the other groups every
non-comment row goes straight to the write, where any of the indexed
columns 0, 1, 2, 4, 7 being out of range raises, i.e. exactly the rows
with at most 7 fields. -/
inductive RowStep
  | skipped
  | written (row : List Content)
  | indexError
deriving DecidableEq

def csvRowOf (group_name : String) (line : Content) : RowStep :=
  if lineStartsHash line then RowStep.skipped
  else
    let cols := splitOnTab (stripChars line)
    if refGroups.contains (lowerName group_name) then
      if cols.length ≤ 4 then RowStep.indexError
      else if !(colAt cols 4 == refGenomeLabel) then RowStep.skipped
      else if cols.length ≤ 7 then RowStep.indexError
      else RowStep.written (csvProjection cols)
    else
      if cols.length ≤ 7 then RowStep.indexError
      else RowStep.written (csvProjection cols)

/-- create_csv_from_summary (cli.py:52-63) on the lines of
assembly_summary.txt: one pass over the lines, writing the contribution of
each row; an IndexError on any row propagates out of the loop uncaught, so
the whole call yields none (nothing in download_group or main catches it
and the run aborts there). -/
def create_csv_from_summary (group_name : String) : List Content → Option (List (List Content))
  | [] => some []
  | l :: ls =>
    match csvRowOf group_name l with
    | RowStep.indexError => none
    | RowStep.skipped => create_csv_from_summary group_name ls
    | RowStep.written row => (create_csv_from_summary group_name ls).map (fun rest => row :: rest)

/-- One group directory during download_group: the flat sequence files,
the archive (.zip) files present, and whether a nested ncbi_dataset
extraction tree currently exists under it. -/
structure GroupState where
  fastas : List (String × Content)
  zips : List String
  ncbiTree : Bool
deriving DecidableEq

/-- Oracles for the external processes one DownloadTask shells out to:
whether the datasets CLI exits 0 for an accession, whether unzip exits 0
on the archive of that accession, whether a successful unzip creates an
ncbi_dataset tree, and the files found at ncbi_dataset/data/<accession>
when that path is a directory (none when it is not). A failing external
command is modelled as producing no files. -/
structure ExtTools where
  dlOk : String → Bool
  exOk : String → Bool
  unzipMakesTree : String → Bool
  nestedFiles : String → Option (List (String × Content))

/-- Outcome of the loop body of download_group for one accession. -/
inductive Outcome
  | skipped
  | dlFailed
  | exFailed
  | downloaded
deriving DecidableEq

/-- What one DownloadTask did: the group directory afterwards, the summary
messages it appended, the number of datasets (network retrieval)
invocations it made, and its outcome. -/
structure StepResult where
  state : GroupState
  logAdds : List String
  netCalls : Nat
  outcome : Outcome
deriving DecidableEq

/-- fnmatch of the pattern acc*ext against a filename, as glob.glob
evaluates it for the patterns of cli.py:103-105: the name must start with
the accession, end with the extension, and be long enough that the two do
not overlap. -/
def globAccMatch (acc ext name : String) : Bool :=
  decide (acc.data.length + ext.data.length ≤ name.data.length) &&
  acc.data.isPrefixOf name.data && ext.data.isSuffixOf name.data

/-- The resumability check of cli.py:103-106: some file in the group
directory matches accession*.fna, accession*.fa or accession*.fasta. -/
def hasFastaFor (files : List (String × Content)) (acc : String) : Bool :=
  fastaExtensions.any (fun ext => files.any (fun f => globAccMatch acc ext f.1))

/-- The loop body of download_group for one nonempty accession
(cli.py:103-133). Skip when a matching sequence file exists; otherwise
invoke datasets (one network call), on failure log and stop this entry;
otherwise the archive exists, invoke unzip, on failure log and stop this
entry (the archive stays, cli.py:121-123 continues before the cleanup);
otherwise move the recognized sequence files out of
ncbi_dataset/data/<accession> when that directory exists and remove the
ncbi_dataset tree there (cli.py:127-131), remove the archive
(cli.py:132), and log success. -/
def processEntry (t : ExtTools) (st : GroupState) (acc : String) : StepResult :=
  if hasFastaFor st.fastas acc then
    ⟨st, [], 0, Outcome.skipped⟩
  else if !(t.dlOk acc) then
    ⟨st, ["❌ Error downloading " ++ acc], 1, Outcome.dlFailed⟩
  else
    let zipName := acc ++ ".zip"
    let st1 : GroupState := ⟨st.fastas, st.zips ++ [zipName], st.ncbiTree⟩
    if !(t.exOk acc) then
      ⟨st1, ["❌ Error extracting " ++ zipName], 1, Outcome.exFailed⟩
    else
      let tree := st1.ncbiTree || t.unzipMakesTree acc
      match t.nestedFiles acc with
      | some fs =>
        let moved := fs.filter (fun f => isFastaName f.1)
        ⟨⟨st1.fastas ++ moved, st1.zips.erase zipName, false⟩,
         ["✅ Downloaded " ++ acc], 1, Outcome.downloaded⟩
      | none =>
        ⟨⟨st1.fastas, st1.zips.erase zipName, tree⟩,
         ["✅ Downloaded " ++ acc], 1, Outcome.downloaded⟩

/-- The summary message the loop body writes for one accession, as a
function of its outcome (cli.py:115, 122, 133); a skipped entry only
prints and writes nothing to the summary. -/
def entryLogMsg (p : String × Outcome) : Option String :=
  match p.2 with
  | Outcome.skipped => none
  | Outcome.dlFailed => some ("❌ Error downloading " ++ p.1)
  | Outcome.exFailed => some ("❌ Error extracting " ++ (p.1 ++ ".zip"))
  | Outcome.downloaded => some ("✅ Downloaded " ++ p.1)

/-- Accumulated effect of the download loop over a list of accessions. -/
structure GroupRun where
  state : GroupState
  log : List String
  net : Nat
  outcomes : List Outcome
deriving DecidableEq

/-- The download loop of cli.py:97-133: rows with an empty accession are
passed over (cli.py:101-102); every other row is processed by the loop
body from the state the previous rows left behind. -/
def processEntries (t : ExtTools) : GroupState → List String → GroupRun
  | st, [] => ⟨st, [], 0, []⟩
  | st, a :: rest =>
    if a = "" then processEntries t st rest
    else
      let r := processEntry t st a
      let k := processEntries t r.state rest
      ⟨k.state, r.logAdds ++ k.log, r.netCalls + k.net, r.outcome :: k.outcomes⟩

/-- Oracles for a whole download run: whether wget successfully fetches
the assembly_summary.txt of a group, the accession column of the filtered
CSV the group yields, and the per-accession external tools. -/
structure PipelineOracle where
  manifestOk : String → Bool
  manifestAccs : String → List String
  tools : ExtTools

/-- What download_group produced for one group. -/
inductive GroupResult
  | manifestFailed
  | processed (outcomes : List Outcome)
deriving DecidableEq

/-- Result of download_group for one group: its outcome, the summary
messages written, and the number of network invocations (the wget of the
manifest plus the datasets calls). -/
structure GroupRunResult where
  result : GroupResult
  log : List String
  net : Nat
deriving DecidableEq

/-- download_group (cli.py:68-135): when the wget of assembly_summary.txt
fails, log the failure and return — nothing else happens for this group
(cli.py:76-80). Otherwise write the CSV, process every accession, and log
completion. -/
def download_group (o : PipelineOracle) (gname : String) (st : GroupState) : GroupRunResult :=
  if o.manifestOk gname = false then
    ⟨GroupResult.manifestFailed,
     ["❌ Failed to download assembly_summary.txt for " ++ gname], 1⟩
  else
    let r := processEntries o.tools st (o.manifestAccs gname)
    ⟨GroupResult.processed r.outcomes,
     ("✅ Created CSV for " ++ gname) :: (r.log ++ ["✅ All genomes processed for " ++ gname]),
     1 + r.net⟩

/-- The group loop of main (cli.py:258-259): each selected group is
handled in turn by download_group; each group works in its own directory
(initSt names its prior contents), and nothing a group returns stops the
loop. -/
def runGroups (o : PipelineOracle) (initSt : String → GroupState) : List String → List GroupResult
  | [] => []
  | g :: rest => (download_group o g (initSt g)).result :: runGroups o initSt rest

/-- Sample oracle under which every external tool succeeds and extraction
yields one genomic sequence file. -/
def allOkTools : ExtTools :=
  ⟨fun _ => true, fun _ => true, fun _ => true,
   fun acc => some [(acc ++ "_genomic.fna", ('>' :: 's' :: '\n' :: []))]⟩

/-- Sample oracle under which the download succeeds but unzip fails. -/
def failExtractTools : ExtTools :=
  ⟨fun _ => true, fun _ => false, fun _ => false, fun _ => none⟩

/-- A group directory with nothing in it yet. -/
def emptyGroupState : GroupState := ⟨[], [], false⟩

/-- A group directory already holding a sequence file for accession
GCF_9. -/
def presentGroupState : GroupState :=
  ⟨[("GCF_9_genomic.fna", ('>' :: 'g' :: '\n' :: []))], [], false⟩

/-- Sample pipeline oracle whose manifest fetch fails for the virus group
and succeeds elsewhere. -/
def failVirusOracle : PipelineOracle :=
  ⟨fun n => !(n == "virus"), fun _ => ["GCA_1"], allOkTools⟩

/-- Sample db directory: one group directory with two one-record files. -/
def sampleDb : DbDir :=
  ⟨[], [("bacteria",
         [("a.fna", ('>' :: '1' :: '\n' :: [])),
          ("b.fna", ('>' :: '2' :: '\n' :: []))]),
        ("containers", [("blast.sif", [])])]⟩

/-- The same files as sampleDb with the two sequence files enumerated in
the opposite order. -/
def sampleDbSwapped : DbDir :=
  ⟨[], [("bacteria",
         [("b.fna", ('>' :: '2' :: '\n' :: [])),
          ("a.fna", ('>' :: '1' :: '\n' :: []))]),
        ("containers", [("blast.sif", [])])]⟩

lemma pythonLines_flatten (s : Content) : (pythonLines s).flatten = s := by
  induction s with
  | nil => rfl
  | cons c rest ih =>
    by_cases h : c = '\n'
    · subst h; simp [pythonLines, ih]
    · rw [pythonLines]
      simp only [if_neg h]
      cases hr : pythonLines rest with
      | nil =>
        have hrest : rest = [] := by
          rw [hr] at ih; simpa using ih.symm
        simp [hrest]
      | cons l ls =>
        rw [hr] at ih
        simp only [List.flatten_cons] at ih ⊢
        simp [← ih]

lemma foldl_writeLine (lines : List Content) (a : Content × Nat) :
    lines.foldl writeLine a = (a.1 ++ lines.flatten, a.2 + lines.countP lineIsRecord) := by
  induction lines generalizing a with
  | nil => simp
  | cons l ls ih =>
    rw [List.foldl_cons, ih]
    unfold writeLine
    by_cases h : lineIsRecord l
    · simp [h, List.countP_cons, List.append_assoc]
      omega
    · simp [h, List.countP_cons, List.append_assoc]

lemma concatStep_eq (a : Content × Nat) (content : Content) :
    concatStep a content = (a.1 ++ content, a.2 + fileRecordCount content) := by
  unfold concatStep fileRecordCount
  rw [foldl_writeLine, pythonLines_flatten]

lemma foldl_concatStep (files : List Content) (a : Content × Nat) :
    files.foldl concatStep a =
      (a.1 ++ files.flatten, a.2 + (files.map fileRecordCount).sum) := by
  induction files generalizing a with
  | nil => simp
  | cons f fs ih =>
    rw [List.foldl_cons, concatStep_eq, ih]
    simp [List.append_assoc, Nat.add_assoc]

lemma concatLoop_eq (files : List Content) :
    concatLoop files = (files.flatten, (files.map fileRecordCount).sum) := by
  unfold concatLoop
  rw [foldl_concatStep]
  simp

/-- C1: the record count reported by the Concatenator equals the sum over
the listed source files of the number of lines starting with the
record-start marker, each such line incrementing the running counter
exactly once as it is copied. -/
theorem c1_concat_record_count (db : DbDir) :
    (concat_genomes db).count =
      ((dbFastaListing db).map (fun f => fileRecordCount f.2)).sum := by
  unfold concat_genomes
  by_cases h : (dbFastaListing db).isEmpty
  · rw [List.isEmpty_iff] at h
    simp [h]
  · simp only [h, if_false, Bool.false_eq_true, if_neg]
    rw [concatLoop_eq, List.map_map]
    rfl

/-- C7 fails as stated: the Concatenator writes lines verbatim and inserts
no newline at file boundaries. With a first file that does not end in a
newline, the combined output is the plain concatenation of the two files,
the boundary lines merge, and the combined file holds one record-start
line although the two sources hold two. -/
theorem c7_counterexample :
    (concatLoop [(">r1\nAC").data, (">r2\nGG\n").data]).1 =
      (">r1\nAC").data ++ (">r2\nGG\n").data ∧
    ((">r1\nAC").data).getLast? = some 'C' ∧
    fileRecordCount ((concatLoop [(">r1\nAC").data, (">r2\nGG\n").data]).1) = 1 ∧
    fileRecordCount ((">r1\nAC").data) + fileRecordCount ((">r2\nGG\n").data) = 2 := by
  decide

/-- C7 amended: the Concatenator never separates consecutive source files
with a newline; the combined output is exactly the verbatim concatenation
of the source files in listed order, so a source file lacking a trailing
newline runs its last record into the first line of the next file. -/
theorem c7_verbatim_concatenation (files : List Content) :
    (concatLoop files).1 = files.flatten := by
  rw [concatLoop_eq]

/-- C8 fails as stated: concat_genomes applies no sorting, so the output
follows the filesystem enumeration order. Two db directories holding the
same set of files, enumerated in different orders, yield different
combined bytes. -/
theorem c8_counterexample :
    (sampleDb.subdirs.map Prod.snd).flatten.Perm
      (sampleDbSwapped.subdirs.map Prod.snd).flatten ∧
    sampleDb.rootFiles = sampleDbSwapped.rootFiles ∧
    (concat_genomes sampleDb).finalFile ≠ (concat_genomes sampleDbSwapped).finalFile := by
  refine ⟨?_, rfl, by decide⟩
  exact List.Perm.append (List.Perm.swap _ _ _) (List.Perm.refl _)

/-- C8 amended: the combined output is a deterministic function of the
sequence of file contents in enumeration order — two runs whose glob
listings carry the same contents in the same order produce a byte-identical
combined file and the same count, whatever the filenames — but nothing
sorts that order. -/
theorem c8_order_determinism (db1 db2 : DbDir)
    (h : (dbFastaListing db1).map Prod.snd = (dbFastaListing db2).map Prod.snd) :
    (concat_genomes db1).finalFile = (concat_genomes db2).finalFile ∧
    (concat_genomes db1).count = (concat_genomes db2).count := by
  by_cases h1 : dbFastaListing db1 = []
  · have h2 : dbFastaListing db2 = [] := by
      rw [h1] at h
      exact List.map_eq_nil_iff.mp h.symm
    simp [concat_genomes, h1, h2]
  · have h2 : dbFastaListing db2 ≠ [] := by
      intro h2
      rw [h2] at h
      exact h1 (List.map_eq_nil_iff.mp h)
    have b1 : (dbFastaListing db1).isEmpty = false := by
      simpa [List.isEmpty_iff] using h1
    have b2 : (dbFastaListing db2).isEmpty = false := by
      simpa [List.isEmpty_iff] using h2
    simp [concat_genomes, b1, b2, h]

/-- Witness for c8_order_determinism: a listing with the same contents
under a different filename in a different directory layout yields the
identical combined file. -/
theorem c8_order_determinism_witness :
    (concat_genomes (DbDir.mk [] [("fungi", [("a.fna", ('>' :: '1' :: '\n' :: []))])])).finalFile =
    (concat_genomes (DbDir.mk [("z.fna", ('>' :: '1' :: '\n' :: []))] [])).finalFile :=
  (c8_order_determinism
    (DbDir.mk [] [("fungi", [("a.fna", ('>' :: '1' :: '\n' :: []))])])
    (DbDir.mk [("z.fna", ('>' :: '1' :: '\n' :: []))] []) (by decide)).1

/-- C6 fails as stated: with zero sequence files under db/, concat_genomes
prints an error and returns None — so no combined file is produced — but
no error is raised and the run does not abort: main continues and the
process exits with code 0 whether or not --build was requested. -/
theorem c6_counterexample :
    dbFastaListing (DbDir.mk [] []) = [] ∧
    (concat_genomes (DbDir.mk [] [])).finalFile = none ∧
    mainExitCode true (DbDir.mk [] []) false true = 0 ∧
    mainExitCode false (DbDir.mk [] []) false true = 0 := by
  decide

/-- C6 amended: when zero recognized sequence files are found,
concat_genomes returns None and produces no combined file, leaving db/
untouched; no exception is raised, the run continues (a --build request
falls back to a previously persisted combined file or is skipped), and
the process exits with code 0. -/
theorem c6_no_input_no_abort (db : DbDir) (h : dbFastaListing db = []) :
    (concat_genomes db).finalFile = none ∧
    (concat_genomes db).dbAfter = db ∧
    (∀ doBuild blastOk : Bool, mainExitCode doBuild db false blastOk = 0) := by
  refine ⟨?_, ?_, ?_⟩
  · simp [concat_genomes, h]
  · simp [concat_genomes, h]
  · intro doBuild blastOk
    cases doBuild <;> simp [mainExitCode, concat_genomes, h, build_blast_db]

/-- Witness for c6_no_input_no_abort at the empty db directory. -/
theorem c6_no_input_no_abort_witness :
    (concat_genomes (DbDir.mk [] [])).finalFile = none ∧
    mainExitCode true (DbDir.mk [] []) false false = 0 := by
  have h := c6_no_input_no_abort (DbDir.mk [] []) (by decide)
  exact ⟨h.1, h.2.2 true false⟩

lemma foldl_append_nil {α β : Type} (g h : β → List α) (exts : List β)
    (hg : ∀ e ∈ exts, g e = []) (hh : ∀ e ∈ exts, h e = []) (acc : List α) :
    exts.foldl (fun a e => a ++ g e ++ h e) acc = acc := by
  induction exts generalizing acc with
  | nil => rfl
  | cons e es ih =>
    rw [List.foldl_cons, hg e (by simp), hh e (by simp)]
    simpa using ih (fun x hx => hg x (by simp [hx])) (fun x hx => hh x (by simp [hx])) acc

lemma dbFastaListing_eq_nil (db : DbDir)
    (hroot : ∀ f ∈ db.rootFiles, isFastaName f.1 = false)
    (hsub : ∀ s ∈ db.subdirs, ∀ f ∈ s.2, isFastaName f.1 = false) :
    dbFastaListing db = [] := by
  have hfil : ∀ (fs : List (String × Content)),
      (∀ f ∈ fs, isFastaName f.1 = false) →
      ∀ ext ∈ fastaExtensions, fs.filter (fun f => strEnds f.1 ext) = [] := by
    intro fs hfs ext hext
    rw [List.filter_eq_nil_iff]
    intro f hf hcontra
    have hfalse := hfs f hf
    unfold isFastaName at hfalse
    rw [List.any_eq_false] at hfalse
    exact hfalse ext hext hcontra
  unfold dbFastaListing
  refine foldl_append_nil _ _ _ ?_ ?_ []
  · intro e he
    exact hfil db.rootFiles hroot e he
  · intro e he
    rw [List.flatten_eq_nil_iff]
    intro l hl
    rw [List.mem_map] at hl
    obtain ⟨s, hs, rfl⟩ := hl
    exact hfil s.2 (hsub s hs) e he

/-- C10: when concat_genomes runs on a nonempty listing, every
subdirectory of db/ other than containers is deleted, the combined file
leaves db/ for the project root as combined_fasta.fasta, and — provided
the files directly under db/ and inside containers are not sequence files,
as in the own layout of the pipeline — a subsequent run finds no inputs under
db/. -/
theorem c10_destructive_concat (db : DbDir) (h : dbFastaListing db ≠ []) :
    (concat_genomes db).dbAfter.subdirs =
      db.subdirs.filter (fun s => s.1 == "containers") ∧
    (concat_genomes db).dbAfter.rootFiles = db.rootFiles ∧
    (∀ s ∈ (concat_genomes db).dbAfter.subdirs, s.1 = "containers") ∧
    (concat_genomes db).finalFile =
      some ("combined_fasta.fasta", ((dbFastaListing db).map Prod.snd).flatten) ∧
    ((∀ f ∈ db.rootFiles, isFastaName f.1 = false) →
     (∀ s ∈ db.subdirs, s.1 = "containers" → ∀ f ∈ s.2, isFastaName f.1 = false) →
     dbFastaListing (concat_genomes db).dbAfter = []) := by
  have b1 : (dbFastaListing db).isEmpty = false := by
    simpa [List.isEmpty_iff] using h
  have hsubs : (concat_genomes db).dbAfter.subdirs =
      db.subdirs.filter (fun s => s.1 == "containers") := by
    simp [concat_genomes, b1]
  refine ⟨hsubs, by simp [concat_genomes, b1], ?_, ?_, ?_⟩
  · intro s hs
    rw [hsubs] at hs
    rw [List.mem_filter] at hs
    exact beq_iff_eq.mp hs.2
  · simp [concat_genomes, b1, concatLoop_eq]
  · intro hroot hsub
    refine dbFastaListing_eq_nil _ ?_ ?_
    · intro f hf
      rw [show (concat_genomes db).dbAfter.rootFiles = db.rootFiles by
        simp [concat_genomes, b1]] at hf
      exact hroot f hf
    · intro s hs f hf
      rw [hsubs, List.mem_filter] at hs
      exact hsub s hs.1 (beq_iff_eq.mp hs.2) f hf

/-- Witness for c10_destructive_concat: a db directory with one group
directory of two sequence files and a containers directory ends with only
the containers directory, and a re-run finds nothing to concatenate. -/
theorem c10_destructive_concat_witness :
    (concat_genomes sampleDb).dbAfter.subdirs = [("containers", [("blast.sif", [])])] ∧
    dbFastaListing (concat_genomes sampleDb).dbAfter = [] := by
  have h := c10_destructive_concat sampleDb (by decide)
  refine ⟨?_, h.2.2.2.2 (by decide) (by decide)⟩
  rw [h.1]
  decide

/-- C2: when a file matching the accession with a recognized FASTA
extension already exists in the group directory, the DownloadTask is a
no-op: no network retrieval is invoked, the directory (all files and their
bytes) is left unchanged, nothing is written to the summary, and the entry
is skipped — hence running the task a second time from the resulting state
again changes nothing, so the Downloader is idempotent there. -/
theorem c2_skip_is_noop (t : ExtTools) (st : GroupState) (acc : String)
    (h : hasFastaFor st.fastas acc = true) :
    processEntry t st acc = ⟨st, [], 0, Outcome.skipped⟩ ∧
    processEntry t (processEntry t st acc).state acc = ⟨st, [], 0, Outcome.skipped⟩ := by
  have h1 : processEntry t st acc = ⟨st, [], 0, Outcome.skipped⟩ := by
    unfold processEntry
    rw [h]
    simp
  refine ⟨h1, ?_⟩
  rw [h1]
  exact h1

/-- Witness for c2_skip_is_noop: with GCF_9_genomic.fna already present,
processing accession GCF_9 skips, touches nothing and makes no network
call. -/
theorem c2_skip_is_noop_witness :
    processEntry allOkTools presentGroupState "GCF_9" =
      ⟨presentGroupState, [], 0, Outcome.skipped⟩ :=
  (c2_skip_is_noop allOkTools presentGroupState "GCF_9" (by decide)).1

/-- C5 fails as stated: when unzip exits non-zero the loop body logs and
continues before any cleanup (cli.py:121-123), so the downloaded archive
stays in the group directory after the task. -/
theorem c5_counterexample :
    (processEntry failExtractTools emptyGroupState "GCA_1").state.zips = ["GCA_1.zip"] ∧
    (processEntry failExtractTools emptyGroupState "GCA_1").outcome = Outcome.exFailed := by
  decide

/-- C5 amended: cleanup is tied to the success path, not unconditional.
When download and extraction both succeed and the expected nested
directory exists, a task starting from a flat group directory (no archives,
no nested tree) leaves it flat again: the archive and the ncbi_dataset
tree are both removed. On extraction failure the archive survives (see the
counterexample), and when the expected nested path is missing an extracted
ncbi_dataset tree is not removed. -/
theorem c5_success_path_cleanup (t : ExtTools) (st : GroupState) (acc : String)
    (fs : List (String × Content))
    (hex : t.exOk acc = true) (hn : t.nestedFiles acc = some fs)
    (hz : st.zips = []) (ht : st.ncbiTree = false) :
    (processEntry t st acc).state.zips = [] ∧
    (processEntry t st acc).state.ncbiTree = false := by
  unfold processEntry
  by_cases hskip : hasFastaFor st.fastas acc
  · simp [hskip, hz, ht]
  · by_cases hdl : t.dlOk acc
    · simp [hskip, hdl, hex, hn, hz]
    · simp [hskip, hdl, hz, ht]

/-- Witness for c5_success_path_cleanup: a fully successful task for
GCA_1 on an empty group directory leaves no archive and no nested tree. -/
theorem c5_success_path_cleanup_witness :
    (processEntry allOkTools emptyGroupState "GCA_1").state.zips = [] ∧
    (processEntry allOkTools emptyGroupState "GCA_1").state.ncbiTree = false :=
  c5_success_path_cleanup allOkTools emptyGroupState "GCA_1"
    [("GCA_1_genomic.fna", ('>' :: 's' :: '\n' :: []))] rfl rfl rfl rfl

lemma processEntry_logAdds (t : ExtTools) (st : GroupState) (a : String) :
    (processEntry t st a).logAdds =
      (entryLogMsg (a, (processEntry t st a).outcome)).toList := by
  unfold processEntry
  by_cases h1 : hasFastaFor st.fastas a
  · simp [h1, entryLogMsg]
  · by_cases h2 : t.dlOk a
    · by_cases h3 : t.exOk a
      · cases hn : t.nestedFiles a <;> simp [h1, h2, h3, hn, entryLogMsg]
      · simp [h1, h2, h3, entryLogMsg]
    · simp [h1, h2, entryLogMsg]

/-- C4: the download loop never aborts on a failed accession: every
nonempty accession row yields exactly one outcome whatever the external
tools do, and the summary messages written are exactly the per-entry
messages of those outcomes — in particular every download or extraction
failure is recorded and the remaining entries are still processed. -/
theorem c4_failure_isolation (t : ExtTools) (st : GroupState) (accs : List String) :
    (processEntries t st accs).outcomes.length =
      (accs.filter (fun a => !(a == ""))).length ∧
    (processEntries t st accs).log =
      ((accs.filter (fun a => !(a == ""))).zip
        (processEntries t st accs).outcomes).filterMap entryLogMsg := by
  induction accs generalizing st with
  | nil => simp [processEntries]
  | cons a rest ih =>
    by_cases ha : a = ""
    · subst ha
      simpa [processEntries] using ih st
    · have hb : ("" == a) = false := by
        simp [beq_eq_false_iff_ne]
        exact fun he => ha he.symm
      have hb2 : (a == "") = false := by
        simp [beq_eq_false_iff_ne, ha]
      have ihr := ih (processEntry t st a).state
      simp only [processEntries, if_neg ha, List.filter_cons, hb2, Bool.not_false,
        if_pos, List.zip_cons_cons, List.filterMap_cons, List.length_cons]
      refine ⟨by rw [ihr.1], ?_⟩
      rw [processEntry_logAdds, ihr.2]
      cases hm : entryLogMsg (a, (processEntry t st a).outcome) <;> simp [hm]

/-- C9: a failed manifest fetch aborts only that group: download_group
logs the failure, makes no further retrieval for the group and returns —
and the group loop of main still runs download_group once for every
requested group, so the sibling groups are processed regardless. -/
theorem c9_group_isolation (o : PipelineOracle) (initSt : String → GroupState)
    (groups : List String) (g : String)
    (_hg : g ∈ groups) (hf : o.manifestOk g = false) :
    (runGroups o initSt groups).length = groups.length ∧
    runGroups o initSt groups =
      groups.map (fun g2 => (download_group o g2 (initSt g2)).result) ∧
    (download_group o g (initSt g)).result = GroupResult.manifestFailed ∧
    (download_group o g (initSt g)).net = 1 ∧
    ("❌ Failed to download assembly_summary.txt for " ++ g) ∈
      (download_group o g (initSt g)).log := by
  have hmap : ∀ gs : List String,
      runGroups o initSt gs = gs.map (fun g2 => (download_group o g2 (initSt g2)).result) := by
    intro gs
    induction gs with
    | nil => rfl
    | cons x xs ih => simp [runGroups, ih]
  refine ⟨by rw [hmap]; simp, hmap groups, ?_, ?_, ?_⟩ <;> simp [download_group, hf]

/-- Witness for c9_group_isolation: with the virus manifest fetch failing,
a run over archaea and virus still yields one result per group and the
virus group ends as manifestFailed. -/
theorem c9_group_isolation_witness :
    (runGroups failVirusOracle (fun _ => emptyGroupState) ["archaea", "virus"]).length = 2 ∧
    (download_group failVirusOracle "virus" emptyGroupState).result =
      GroupResult.manifestFailed := by
  have h := c9_group_isolation failVirusOracle (fun _ => emptyGroupState)
    ["archaea", "virus"] "virus" (by decide) (by decide)
  exact ⟨h.1, h.2.2.1⟩

lemma create_csv_eq (g : String) (lines : List Content)
    (hwf : ∀ l ∈ lines, lineStartsHash l = false →
      7 < (splitOnTab (stripChars l)).length) :
    create_csv_from_summary g lines =
      some (((lines.filter (fun l => !(lineStartsHash l))).filter
          (fun l => !(refGroups.contains (lowerName g)) ||
                    (colAt (splitOnTab (stripChars l)) 4 == refGenomeLabel))).map
        (fun l => csvProjection (splitOnTab (stripChars l)))) := by
  induction lines with
  | nil => rfl
  | cons l ls ih =>
    have ihr := ih (fun x hx hh => hwf x (List.mem_cons_of_mem _ hx) hh)
    by_cases h1 : lineStartsHash l = true
    · have hf : csvRowOf g l = RowStep.skipped := by simp [csvRowOf, h1]
      simp only [create_csv_from_summary, hf]
      simp [List.filter_cons, h1, ihr]
    · have hlen : 7 < (splitOnTab (stripChars l)).length :=
        hwf l (by simp) (by simpa using h1)
      have h7 : ¬ ((splitOnTab (stripChars l)).length ≤ 7) := by omega
      have h4 : ¬ ((splitOnTab (stripChars l)).length ≤ 4) := by omega
      cases hcon : refGroups.contains (lowerName g) with
      | false =>
        have hm : lowerName g ∉ refGroups := by simpa using hcon
        have hf : csvRowOf g l = RowStep.written (csvProjection (splitOnTab (stripChars l))) := by
          simp [csvRowOf, h1, hm, h7]
        simp only [create_csv_from_summary, hf]
        simp [List.filter_cons, h1, hm, ihr]
      | true =>
        have hm : lowerName g ∈ refGroups := by simpa using hcon
        by_cases hcol : (colAt (splitOnTab (stripChars l)) 4 == refGenomeLabel) = true
        · have hf : csvRowOf g l =
              RowStep.written (csvProjection (splitOnTab (stripChars l))) := by
            simp [csvRowOf, h1, hm, h4, h7, hcol]
          simp only [create_csv_from_summary, hf]
          simp [List.filter_cons, h1, hm, hcol, ihr]
        · simp only [Bool.not_eq_true] at hcol
          have hf : csvRowOf g l = RowStep.skipped := by
            simp [csvRowOf, h1, hm, h4, hcol]
          simp only [create_csv_from_summary, hf]
          simp [List.filter_cons, h1, hm, hcol, ihr]

/-- C3: on a manifest whose non-comment rows carry the full column count
the Python indexing needs (at least 8 tab-separated fields, as the real
assembly_summary.txt rows do), create_csv_from_summary skips every line
starting with the comment marker; for a group whose lower-cased name is
archaea, bacteria, fungi or plants it keeps exactly the non-comment rows
whose category column (the fifth tab-separated field) equals
"reference genome", and for the virus group it keeps every non-comment
row. -/
theorem c3_manifest_filter (g : String) (lines : List Content)
    (hwf : ∀ l ∈ lines, lineStartsHash l = false →
      7 < (splitOnTab (stripChars l)).length) :
    (refGroups.contains (lowerName g) = true →
      create_csv_from_summary g lines =
        some (((lines.filter (fun l => !(lineStartsHash l))).filter
            (fun l => colAt (splitOnTab (stripChars l)) 4 == refGenomeLabel)).map
          (fun l => csvProjection (splitOnTab (stripChars l))))) ∧
    create_csv_from_summary "virus" lines =
      some ((lines.filter (fun l => !(lineStartsHash l))).map
        (fun l => csvProjection (splitOnTab (stripChars l)))) := by
  constructor
  · intro hc
    rw [create_csv_eq g lines hwf]
    refine congrArg some ?_
    congr 1
    apply List.filter_congr
    intro x _
    simp only [hc, Bool.not_true, Bool.false_or]
  · rw [create_csv_eq "virus" lines hwf]
    have hv : refGroups.contains (lowerName "virus") = false := by decide
    rw [hv]
    simp

/-- Witness for c3_manifest_filter: out of a comment line, a reference
genome row for ID1 and a scaffold row for ID2 (both with the full 8
fields), the bacteria filter keeps exactly the projected ID1 row. -/
theorem c3_manifest_filter_witness :
    create_csv_from_summary "bacteria"
      [("# assembly_accession\tname").data,
       ("ID1\tOrg1\tX\tY\treference genome\tA\tB\tpath1").data,
       ("ID2\tOrg2\tX\tY\tscaffold\tA\tB\tpath2").data] =
      some [[("ID1").data, ("Org1").data, ("X").data,
        ("reference genome").data, ("path1").data]] := by
  have h := (c3_manifest_filter "bacteria"
    [("# assembly_accession\tname").data,
     ("ID1\tOrg1\tX\tY\treference genome\tA\tB\tpath1").data,
     ("ID2\tOrg2\tX\tY\tscaffold\tA\tB\tpath2").data] (by decide)).1 (by decide)
  rw [h]
  decide
